import Mathlib

/-!
Verification of the traffic-monitoring IoT system: the React dashboard
computations present in the source tree (`src/App.js`,
`src/components/TrafficMonitoring.js`), and the stream aggregation and
alert-evaluation engine described by the specification.  The engine's
implementation is not part of the source tree, so its definitions are
modelled from the specification text and are marked as such.

Numeric values are modelled as rationals; JavaScript coercions
(`parseFloat(x) || 0`) are modelled explicitly.

The file is organised as: all definitions first, then all theorems.
-/

namespace TrafficIot

/-! ## Dashboard data model -/

/-- A numeric-ish JSON field as the dashboard reads it: a number (modelled
as a rational), the placeholder string `"-"` used for missing data, or any
other non-numeric value (for which JavaScript `parseFloat` yields `NaN`). -/
inductive JsNum where
  | num : ℚ → JsNum
  | dash : JsNum
  | nonnum : JsNum
  deriving DecidableEq, Repr

/-- JavaScript `parseFloat(x) || 0`: a non-numeric value (`NaN`) coerces to
`0`; a parsed `0` also yields `0` through the `||`. -/
def parseFloatOr0 : JsNum → ℚ
  | .num q => q
  | .dash => 0
  | .nonnum => 0

/-- A sensor row as delivered by `/api/data`, restricted to the fields the
verified dashboard code reads. -/
structure Sensor where
  sensor_id : String
  sensor_type : String
  avg_speed_kmh : JsNum
  vehicle_count_per_min : JsNum
  deriving DecidableEq, Repr

/-! ## App component: selection / filter state (src/App.js) -/

/-- UI state of the `App` component: `useState(null)` for the selected
sensor and `useState('all')` for the sensor-type filter. -/
structure AppState where
  selectedSensor : Option String
  sensorFilter : String
  deriving DecidableEq, Repr

/-- Initial `App` state: no selection, filter `'all'`. -/
def initialAppState : AppState := ⟨none, "all"⟩

/-- The three state-changing UI events of the `App` component. -/
inductive AppEvent where
  | select : String → AppEvent
  | filterChange : String → AppEvent
  | clear : AppEvent
  deriving DecidableEq, Repr

/-- `handleSensorSelect` (sets the selection, resets the filter to `'all'`),
`handleFilterChange` (sets the filter, clears the selection) and
`clearSelection` (clears the selection only). -/
def appStep (st : AppState) : AppEvent → AppState
  | .select sid => { selectedSensor := some sid, sensorFilter := "all" }
  | .filterChange f => { selectedSensor := none, sensorFilter := f }
  | .clear => { st with selectedSensor := none }

/-- Run a sequence of UI events from a starting state. -/
def appRun (st : AppState) (evs : List AppEvent) : AppState :=
  evs.foldl appStep st

/-- JavaScript truthiness of the `selectedSensor` value: `null` and the
empty string are falsy. -/
def truthyStr : Option String → Bool
  | none => false
  | some s => !(s == "")

/-- `getFilteredSensors` from the `App` component: an individual selection
wins; otherwise the type filter applies unless it is `'all'`. -/
def getFilteredSensors (sensors : List Sensor) (st : AppState) : List Sensor :=
  if truthyStr st.selectedSensor then
    sensors.filter (fun s => s.sensor_id == st.selectedSensor.getD "")
  else if st.sensorFilter == "all" then sensors
  else sensors.filter (fun s => s.sensor_type == st.sensorFilter)

/-- Invariant of the `App` state coupling selection and filter: either no
sensor is selected, or a nonempty sensor id is selected and the filter is
`'all'`. -/
def AppInv (st : AppState) : Prop :=
  st.selectedSensor = none ∨
    ∃ sid, st.selectedSensor = some sid ∧ sid ≠ "" ∧ st.sensorFilter = "all"

/-! ## generateSpeedDistribution (src/components/TrafficMonitoring.js) -/

/-- The five speed-bucket counters of `generateSpeedDistribution`,
labelled `<20`, `20-40`, `41-60`, `61-80`, `80+` km/h. -/
structure SpeedCounts where
  lt20 : ℕ
  b20to40 : ℕ
  b41to60 : ℕ
  b61to80 : ℕ
  over80 : ℕ
  deriving DecidableEq, Repr

/-- Sum of the five bucket counters. -/
def SpeedCounts.total (c : SpeedCounts) : ℕ :=
  c.lt20 + c.b20to40 + c.b41to60 + c.b61to80 + c.over80

/-- One iteration of the `forEach` loop of `generateSpeedDistribution`:
`speed = parseFloat(sensor.avg_speed_kmh) || 0`, then the if/else-if chain
`< 20`, `<= 40`, `<= 60`, `<= 80`, else. -/
def bumpSpeed (c : SpeedCounts) (sensor : Sensor) : SpeedCounts :=
  let speed := parseFloatOr0 sensor.avg_speed_kmh
  if speed < 20 then { c with lt20 := c.lt20 + 1 }
  else if speed ≤ 40 then { c with b20to40 := c.b20to40 + 1 }
  else if speed ≤ 60 then { c with b41to60 := c.b41to60 + 1 }
  else if speed ≤ 80 then { c with b61to80 := c.b61to80 + 1 }
  else { c with over80 := c.over80 + 1 }

/-- `generateSpeedDistribution`: keep the `traffic_loop` sensors and count
each into its speed bucket. -/
def generateSpeedDistribution (sensors : List Sensor) : SpeedCounts :=
  (sensors.filter (fun s => s.sensor_type == "traffic_loop")).foldl
    bumpSpeed ⟨0, 0, 0, 0, 0⟩

/-! ## groupDataByPeriod (src/components/TrafficMonitoring.js) -/

/-- The calendar fields of a parsed JavaScript `Date` that
`groupDataByPeriod` reads: `getMonth()` (0-based), `getDate()`,
`getHours()`, `getMinutes()`. -/
structure DateParts where
  month : ℕ
  day : ℕ
  hours : ℕ
  minutes : ℕ
  deriving DecidableEq, Repr

/-- One row of `/api/traffic/historical`: a possibly missing (falsy)
timestamp and the `vehicle_count_per_min` field. -/
structure HistItem where
  timestamp : Option DateParts
  vehicle_count_per_min : JsNum
  deriving DecidableEq, Repr

/-- `n.toString().padStart(2, '0')` for the small numbers used in time
keys. -/
def pad2 (n : ℕ) : String :=
  if n < 10 then "0" ++ toString n else toString n

/-- The `switch (granularityLevel)` of `groupDataByPeriod` producing the
time key, plus the date prefix added when the period is `2days` or `week`.
Unrecognised granularities take the `default` branch (same key as
`1min`). -/
def timeKey (period granularityLevel : String) (d : DateParts) : String :=
  let base :=
    if granularityLevel == "1min" then pad2 d.hours ++ ":" ++ pad2 d.minutes
    else if granularityLevel == "5min" then
      pad2 d.hours ++ ":" ++ pad2 (d.minutes / 5 * 5)
    else if granularityLevel == "30min" then
      pad2 d.hours ++ ":" ++ pad2 (d.minutes / 30 * 30)
    else if granularityLevel == "1hour" then pad2 d.hours ++ ":00"
    else if granularityLevel == "1day" then
      toString (d.month + 1) ++ "/" ++ toString d.day
    else pad2 d.hours ++ ":" ++ pad2 d.minutes
  if period == "2days" || period == "week" then
    toString (d.month + 1) ++ "/" ++ toString d.day ++ " " ++ base
  else base

/-- The guard at the top of the `forEach` loop of `groupDataByPeriod`:
`if (!item.timestamp || item.vehicle_count_per_min === '-') return;`. -/
def itemIncluded (it : HistItem) : Bool :=
  it.timestamp.isSome && !(it.vehicle_count_per_min == JsNum.dash)

/-- The time key an item is grouped under, when it has a timestamp. -/
def itemKey (period gran : String) (it : HistItem) : Option String :=
  it.timestamp.map (timeKey period gran)

/-- `grouped[timeKey].push(v)` on an association list: append `v` to the
values of an existing key, else add the key at the end (JavaScript object
property insertion order). -/
def pushKey (al : List (String × List ℚ)) (k : String) (v : ℚ) :
    List (String × List ℚ) :=
  match al with
  | [] => [(k, [v])]
  | (k0, vs) :: rest =>
      if k0 == k then (k0, vs ++ [v]) :: rest
      else (k0, vs) :: pushKey rest k v

/-- One iteration of the `forEach` accumulation loop of
`groupDataByPeriod`. -/
def groupStep (period gran : String) (al : List (String × List ℚ))
    (it : HistItem) : List (String × List ℚ) :=
  match it.timestamp with
  | none => al
  | some d =>
      if it.vehicle_count_per_min == JsNum.dash then al
      else pushKey al (timeKey period gran d)
        (parseFloatOr0 it.vehicle_count_per_min)

/-- The accumulation phase of `groupDataByPeriod` over the whole data
list. -/
def groupPhase (period gran : String) (data : List HistItem) :
    List (String × List ℚ) :=
  data.foldl (groupStep period gran) []

/-- Values stored under key `k` (empty when the key is absent). -/
def lookupVals (al : List (String × List ℚ)) (k : String) : List ℚ :=
  match al with
  | [] => []
  | (k0, vs) :: rest => if k0 == k then vs else lookupVals rest k

/-- The keys of the grouped association list, in insertion order. -/
def alKeys (al : List (String × List ℚ)) : List String := al.map Prod.fst

/-- `groupDataByPeriod`: group the included items by time key, then emit
`Object.keys(grouped).sort()` as labels and the per-label average of the
collected `parseFloat(...) || 0` values as chart data. -/
def groupDataByPeriod (data : List HistItem) (period gran : String) :
    List String × List ℚ :=
  let grouped := groupPhase period gran data
  let labels := (alKeys grouped).mergeSort (fun a b => decide (a ≤ b))
  (labels,
    labels.map (fun l =>
      let vs := lookupVals grouped l
      vs.sum / (vs.length : ℚ)))

/-! ## Stream aggregation and alert-evaluation engine

The engine itself (Validator, Window Manager, Aggregator, Anomaly
Detector, Alert Evaluator) is not present in the source tree; every
definition below is modelled from the specification text (its section is
cited) and is marked `Modelled from the spec`.  Time values are integers
(seconds); numeric readings are rationals. -/

/-- Modelled from the spec (§3): the sensor categories of the engine. -/
inductive SensorType where
  | traffic
  | air_quality
  | noise
  deriving DecidableEq, Repr

/-- Modelled from the spec (§3): a reading as produced by the ingestion
adapter: sensor id, sensor type, metric name, numeric value, timestamp,
ingest sequence number. -/
structure Reading where
  sensor_id : String
  sensor_type : SensorType
  metric : String
  value : ℚ
  timestamp : ℤ
  ingest_sequence : ℕ
  deriving DecidableEq, Repr

/-- Modelled from the spec (§4.1, §7): the typed validation failure
reasons. -/
inductive ValidationError where
  | OutOfRange
  | MalformedPayload
  | StaleTimestamp
  | FutureTimestamp
  deriving DecidableEq, Repr

/-- Modelled from the spec (§4.1): the static numeric range table per
sensor type and metric: speed ∈ [0, 200] km/h, wait time ≥ 0 (unbounded
above), PM2.5 ∈ [0, 1000] µg/m³, noise ∈ [0, 140] dB.  An unknown metric
has no row. -/
def rangeFor : SensorType → String → Option (ℚ × Option ℚ)
  | .traffic, "speed" => some (0, some 200)
  | .traffic, "wait_time" => some (0, none)
  | .air_quality, "pm25" => some (0, some 1000)
  | .noise, "noise" => some (0, some 140)
  | _, _ => none

/-- Modelled from the spec (§4.1): the retention horizon of 24 hours, in
seconds. -/
def retentionHorizon : ℤ := 24 * 60 * 60

/-- Modelled from the spec (§4.1): the "small skew ahead of now" that a
timestamp may have, chosen as 5 minutes in seconds. -/
def clockSkewAllowance : ℤ := 300

/-- Modelled from the spec (§4.1): `validate(Reading) ->
Result<Reading, ValidationError>`.  A reading with no range row is
malformed; a timestamp older than the retention horizon is stale, one
more than the skew ahead of `now` is from the future; a value outside the
range row is out of range; otherwise the reading is returned unchanged. -/
def validate (now : ℤ) (r : Reading) : Except ValidationError Reading :=
  match rangeFor r.sensor_type r.metric with
  | none => .error .MalformedPayload
  | some (lo, hi?) =>
      if r.timestamp < now - retentionHorizon then .error .StaleTimestamp
      else if now + clockSkewAllowance < r.timestamp then .error .FutureTimestamp
      else if r.value < lo then .error .OutOfRange
      else
        match hi? with
        | some hi => if hi < r.value then .error .OutOfRange else .ok r
        | none => .ok r

/-- Modelled from the spec (§3): the count-window capacity K = 20. -/
def countCapacity : ℕ := 20

/-- Minimum of a list of rationals, `none` for the empty list. -/
def minOf (l : List ℚ) : Option ℚ :=
  l.foldl (fun acc x => some (match acc with | none => x | some m => min m x)) none

/-- Maximum of a list of rationals, `none` for the empty list. -/
def maxOf (l : List ℚ) : Option ℚ :=
  l.foldl (fun acc x => some (match acc with | none => x | some m => max m x)) none

/-- Modelled from the spec (§3, §4.2, §4.3): the fixed-capacity count
window together with its incrementally maintained aggregate: running
`sum`, `sumSq` (sum of squares), `count`, minimum `lo` and maximum `hi`.
The raw buffer `buf` (oldest first) is carried so that the incremental
aggregate can be compared against recomputation from raw contents. -/
structure CountWindow where
  buf : List ℚ
  sum : ℚ
  sumSq : ℚ
  count : ℕ
  lo : Option ℚ
  hi : Option ℚ
  deriving DecidableEq, Repr

/-- The empty count window. -/
def CountWindow.empty : CountWindow := ⟨[], 0, 0, 0, none, none⟩

/-- Modelled from the spec (§4.2, §4.3): append a valid reading to the
count window; at capacity the oldest entry is overwritten (ring
semantics), its contribution being subtracted from the running sum and
sum-of-squares before the new value's contribution is added.  The spec's
"subtract on evict" has no meaning for min/max, so on eviction these are
recomputed from the remaining buffer. -/
def CountWindow.insert (w : CountWindow) (x : ℚ) : CountWindow :=
  if w.buf.length < countCapacity then
    { buf := w.buf ++ [x]
      sum := w.sum + x
      sumSq := w.sumSq + x * x
      count := w.count + 1
      lo := some (match w.lo with | none => x | some m => min m x)
      hi := some (match w.hi with | none => x | some m => max m x) }
  else
    let evicted := w.buf.headI
    let buf1 := w.buf.tail ++ [x]
    { buf := buf1
      sum := w.sum - evicted + x
      sumSq := w.sumSq - evicted * evicted + x * x
      count := w.count - 1 + 1
      lo := minOf buf1
      hi := maxOf buf1 }

/-- Insert a whole sequence of valid readings into an initially empty
count window. -/
def insertAll (xs : List ℚ) : CountWindow :=
  xs.foldl CountWindow.insert CountWindow.empty

/-- Modelled from the spec (§4.3): `mean = sum / count` (0 for the empty
window under rational division by zero). -/
def CountWindow.mean (w : CountWindow) : ℚ := w.sum / (w.count : ℚ)

/-- Modelled from the spec (§4.3): the variance
`max 0 (sumSq / count - mean²)`, guarded against negative rounding;
`stddev` is its square root. -/
def CountWindow.variance (w : CountWindow) : ℚ :=
  max 0 (w.sumSq / (w.count : ℚ) - w.mean ^ 2)

/-- Modelled from the spec (§4.3): the aggregate recomputed from scratch
over the raw window contents, as the reconciliation pass would do. -/
def recomputeAgg (l : List ℚ) : CountWindow :=
  ⟨l, l.sum, (l.map (fun x => x * x)).sum, l.length, minOf l, maxOf l⟩

/-- Consistency of the incrementally maintained aggregate fields with the
raw buffer contents. -/
def GoodWindow (w : CountWindow) : Prop :=
  w.sum = w.buf.sum ∧
  w.sumSq = (w.buf.map (fun x => x * x)).sum ∧
  w.count = w.buf.length ∧
  w.lo = minOf w.buf ∧
  w.hi = maxOf w.buf

/-- Modelled from the spec (§3, §4.2): the time-window width W = 10
minutes, in seconds. -/
def timeWindowW : ℤ := 600

/-- Modelled from the spec (§4.2): one time-window pass for one arriving
reading, at evaluation time `now`: first evict all head entries with
`timestamp < now - W` (eviction removes from the head only, in the same
pass as the insertion), then insert the reading at the tail unless it is
itself older than the horizon, in which case it is dropped. -/
def timeStep (now : ℤ) (w : List Reading) (r : Reading) : List Reading :=
  let w1 := w.dropWhile (fun e => decide (e.timestamp < now - timeWindowW))
  if r.timestamp < now - timeWindowW then w1 else w1 ++ [r]

/-- Process a sequence of `(evaluation time, reading)` pairs through the
time window. -/
def timeRun (w : List Reading) (seq : List (ℤ × Reading)) : List Reading :=
  seq.foldl (fun acc p => timeStep p.1 acc p.2) w

/-- The evaluation time of the last processed pair (`n` when the sequence
is empty). -/
def finalTime (n : ℤ) (seq : List (ℤ × Reading)) : ℤ :=
  seq.foldl (fun _ p => p.1) n

/-- Modelled from the spec (§4.4): the minimum sample size (default 5)
below which the anomaly detector gives no verdict. -/
def minSampleSize : ℕ := 5

/-- Modelled from the spec (§4.4): the z-score threshold, default 2.5. -/
def zThreshold : ℚ := 5 / 2

/-- Modelled from the spec (§4.4): why a reading was flagged. -/
inductive AnomalyReason where
  | zscore
  | spike
  deriving DecidableEq, Repr

/-- Modelled from the spec (§4.4): the detector's outcome; with fewer than
the minimum sample size it returns no verdict at all (insufficient data),
which is distinct from classifying the reading as not anomalous. -/
inductive Verdict where
  | insufficientData
  | notAnomalous
  | anomalous : AnomalyReason → Verdict
  deriving DecidableEq, Repr

/-- Modelled from the spec (§4.4): `classify(Reading, count-window
Aggregate)`.  With fewer than `minSampleSize` samples there is no verdict.
Otherwise the z-score rule `|value - mean| > z·stddev` flags the reading;
the comparison is expressed on squares, `(value - mean)² > z²·variance`,
which is equivalent since both sides are nonnegative and keeps the
computation in the rationals.  For traffic metrics an absolute spike rule
(value more than double the window mean) also flags it. -/
def classify (st : SensorType) (value : ℚ) (w : CountWindow) : Verdict :=
  if w.count < minSampleSize then .insufficientData
  else if zThreshold ^ 2 * w.variance < (value - w.mean) ^ 2 then
    .anomalous .zscore
  else if st == SensorType.traffic && decide (2 * w.mean < value) then
    .anomalous .spike
  else .notAnomalous

/-- Modelled from the spec (§4.5): the alert levels. -/
inductive AlertLevel where
  | NORMAL
  | WARNING
  | CRITICAL
  | RESOLVING
  deriving DecidableEq, Repr

/-- Modelled from the spec (§4.5): the externally configured threshold
profile: two-level thresholds, hysteresis counters, notification
cooldown. -/
structure AlertConfig where
  warning_threshold : ℚ
  critical_threshold : ℚ
  breach_count_to_escalate : ℕ
  ok_count_to_resolve : ℕ
  notify_cooldown : ℤ
  deriving DecidableEq, Repr

/-- Modelled from the spec (§4.5): per-(sensor, metric) alert state:
level, consecutive-breach and consecutive-ok counters, last-notified
timestamp. -/
structure AlertState where
  level : AlertLevel
  breach_streak : ℕ
  ok_streak : ℕ
  last_notified : Option ℤ
  deriving DecidableEq, Repr

/-- Modelled from the spec (§4.5): initial state for a never-seen
sensor/metric is NORMAL with zero counters and no notification sent. -/
def AlertState.initial : AlertState := ⟨.NORMAL, 0, 0, none⟩

/-- Modelled from the spec (§4.5): the cooldown test
`now - last_notified ≥ notify_cooldown` (vacuously true when nothing was
ever notified). -/
def cooldownOk (cfg : AlertConfig) (last : Option ℤ) (now : ℤ) : Bool :=
  match last with
  | none => true
  | some t => decide (cfg.notify_cooldown ≤ now - t)

/-- Modelled from the spec (§4.5): the level reached once
`breach_count_to_escalate` consecutive breaching aggregates have been
seen.  Per §8 a breach of the critical threshold escalates to CRITICAL in
the same step (passing through WARNING); a warning-only breach moves up
to WARNING. -/
def escalTarget (level : AlertLevel) (critB : Bool) : AlertLevel :=
  match level with
  | .CRITICAL => .CRITICAL
  | _ => if critB then .CRITICAL else .WARNING

/-- Modelled from the spec (§4.5): the level reached after a breaching
aggregate has extended the breach streak: escalate only once the streak
reaches `breach_count_to_escalate`. -/
def breachTarget (cfg : AlertConfig) (st : AlertState) (critB : Bool) :
    AlertLevel :=
  if cfg.breach_count_to_escalate ≤ st.breach_streak + 1 then
    escalTarget st.level critB
  else st.level

/-- Modelled from the spec (§4.5): the state update for a breaching
aggregate.  On an upward transition into CRITICAL a notification intent
(the returned timestamp) is emitted iff the cooldown test passes, and
`last_notified` is updated exactly then. -/
def breachUpdate (cfg : AlertConfig) (st : AlertState) (now : ℤ)
    (critB : Bool) : AlertState × Option ℤ :=
  if breachTarget cfg st critB == AlertLevel.CRITICAL
      && !(st.level == AlertLevel.CRITICAL)
      && cooldownOk cfg st.last_notified now then
    (⟨breachTarget cfg st critB, st.breach_streak + 1, 0, some now⟩, some now)
  else
    (⟨breachTarget cfg st critB, st.breach_streak + 1, 0, st.last_notified⟩,
      none)

/-- Modelled from the spec (§4.5): the state update for a non-breaching
aggregate: the ok streak grows, elevated levels move through RESOLVING
and, after `ok_count_to_resolve` consecutive ok aggregates, back to
NORMAL. -/
def calmUpdate (cfg : AlertConfig) (st : AlertState) : AlertState × Option ℤ :=
  match st.level with
  | .NORMAL => (⟨.NORMAL, 0, st.ok_streak + 1, st.last_notified⟩, none)
  | .WARNING => (⟨.RESOLVING, 0, 1, st.last_notified⟩, none)
  | .CRITICAL => (⟨.RESOLVING, 0, 1, st.last_notified⟩, none)
  | .RESOLVING =>
      if cfg.ok_count_to_resolve ≤ st.ok_streak + 1 then
        (⟨.NORMAL, 0, 0, st.last_notified⟩, none)
      else (⟨.RESOLVING, 0, st.ok_streak + 1, st.last_notified⟩, none)

/-- Modelled from the spec (§4.5): one transition of the alert state
machine, driven by a new aggregate value `v` (and an optional anomaly
flag) at time `now`.  A warning-threshold breach takes the breach path;
otherwise an anomaly flag alone pushes NORMAL to WARNING; otherwise the
non-breaching path applies. -/
def stepAlert (cfg : AlertConfig) (st : AlertState) (now : ℤ) (v : ℚ)
    (anom : Bool) : AlertState × Option ℤ :=
  if decide (cfg.warning_threshold ≤ v) then
    breachUpdate cfg st now (decide (cfg.critical_threshold ≤ v))
  else if anom && (st.level == AlertLevel.NORMAL) then
    (⟨.WARNING, 0, 0, st.last_notified⟩, none)
  else calmUpdate cfg st

/-- The timestamps of the notification intents emitted while the alert
machine consumes a trace of `(now, aggregate value, anomaly flag)`
triples. -/
def notifyTimes (cfg : AlertConfig) (st : AlertState) :
    List (ℤ × ℚ × Bool) → List ℤ
  | [] => []
  | (now, v, a) :: rest =>
      match stepAlert cfg st now v a with
      | (st', some t) => t :: notifyTimes cfg st' rest
      | (st', none) => notifyTimes cfg st' rest

/-- Notification times are spaced: each one is at least the cooldown after
the `last` notification time threaded before it. -/
def Spaced (c : ℤ) : Option ℤ → List ℤ → Prop
  | _, [] => True
  | last, t :: ts => (∀ l, last = some l → l + c ≤ t) ∧ Spaced c (some t) ts

/-- Modelled from the spec (§2, §4.2): the engine state reached by the
stream processor: one count window and one time window per
(sensor_id, metric) key, plus the rejected-readings counter. -/
structure EngineState where
  countW : List ((String × String) × CountWindow)
  timeW : List ((String × String) × List Reading)
  rejected : ℕ
  deriving DecidableEq, Repr

/-- Update the association list entry at `key` with `f` (inserting
`f default` when the key is absent). -/
def upsertWith {β : Type} (dflt : β) (f : β → β)
    (key : String × String) :
    List ((String × String) × β) → List ((String × String) × β)
  | [] => [(key, f dflt)]
  | (k0, b) :: rest =>
      if k0 == key then (k0, f b) :: rest
      else (k0, b) :: upsertWith dflt f key rest

/-- Modelled from the spec (§2, §4.2): process one raw reading: validate
it; a rejected reading only bumps the rejection counter and never reaches
any window; a valid reading is applied to both windows of its
(sensor_id, metric) key. -/
def processReading (st : EngineState) (now : ℤ) (r : Reading) : EngineState :=
  match validate now r with
  | .error _ => { st with rejected := st.rejected + 1 }
  | .ok r' =>
      { st with
        countW := upsertWith CountWindow.empty (fun w => w.insert r'.value)
          (r'.sensor_id, r'.metric) st.countW
        timeW := upsertWith [] (fun w => timeStep now w r')
          (r'.sensor_id, r'.metric) st.timeW }

end TrafficIot

namespace TrafficIot

/-! ## Theorems: App selection / filter (C8) -/

theorem appInv_step (st : AppState) (ev : AppEvent)
    (hne : ∀ sid, ev = AppEvent.select sid → sid ≠ "") :
    AppInv (appStep st ev) := by
  cases ev with
  | select sid =>
      exact Or.inr ⟨sid, rfl, hne sid rfl, rfl⟩
  | filterChange f => exact Or.inl rfl
  | clear => exact Or.inl rfl

theorem appInv_run (st : AppState) (evs : List AppEvent) (hinv : AppInv st)
    (hne : ∀ sid, AppEvent.select sid ∈ evs → sid ≠ "") :
    AppInv (appRun st evs) := by
  induction evs generalizing st with
  | nil => exact hinv
  | cons ev evs ih =>
      exact ih (appStep st ev)
        (appInv_step st ev (fun sid h => hne sid (by simp [h])))
        (fun sid h => hne sid (by simp [h]))

/-- **C8.** After any sequence of select / filter / clear events (with the
selected ids being real, nonempty sensor ids), it is never the case that a
sensor is selected while the type filter differs from `'all'`, and
`getFilteredSensors` returns exactly the sensors matching the selection if
one exists, else all sensors if the filter is `'all'`, else exactly the
sensors of the filtered type. -/
theorem app_selection_filter_exclusive (evs : List AppEvent)
    (hne : ∀ sid, AppEvent.select sid ∈ evs → sid ≠ "") :
    (¬ ((appRun initialAppState evs).selectedSensor.isSome = true ∧
        (appRun initialAppState evs).sensorFilter ≠ "all")) ∧
    ∀ sensors : List Sensor,
      getFilteredSensors sensors (appRun initialAppState evs) =
        match (appRun initialAppState evs).selectedSensor with
        | some sid => sensors.filter (fun s => s.sensor_id == sid)
        | none =>
            if (appRun initialAppState evs).sensorFilter = "all" then sensors
            else sensors.filter
              (fun s => s.sensor_type == (appRun initialAppState evs).sensorFilter) := by
  have hinv : AppInv (appRun initialAppState evs) :=
    appInv_run initialAppState evs (Or.inl rfl) hne
  rcases hinv with hnone | ⟨sid, hsel, hsid, hfilt⟩
  · constructor
    · intro ⟨hsome, _⟩
      rw [hnone] at hsome
      simp at hsome
    · intro sensors
      rw [getFilteredSensors, hnone]
      simp [truthyStr]
  · constructor
    · intro ⟨_, hne'⟩
      exact hne' hfilt
    · intro sensors
      rw [getFilteredSensors, hsel]
      have : truthyStr (some sid) = true := by
        simp [truthyStr]
        intro h
        exact hsid h
      rw [this]
      simp

/-- Witness for C8 at a concrete event sequence: select sensor
`"traffic_001"`, change the filter to `"noise"`, then select again. -/
theorem app_selection_filter_exclusive_witness :
    (¬ (((appRun initialAppState
          [AppEvent.select "traffic_001", AppEvent.filterChange "noise",
           AppEvent.select "traffic_002"]).selectedSensor.isSome = true) ∧
        (appRun initialAppState
          [AppEvent.select "traffic_001", AppEvent.filterChange "noise",
           AppEvent.select "traffic_002"]).sensorFilter ≠ "all")) := by
  refine (app_selection_filter_exclusive
    [AppEvent.select "traffic_001", AppEvent.filterChange "noise",
     AppEvent.select "traffic_002"] ?_).1
  intro sid hmem
  simp only [List.mem_cons, List.not_mem_nil, or_false] at hmem
  rcases hmem with h | h | h
  · rcases AppEvent.select.inj h with rfl
    decide
  · simp at h
  · rcases AppEvent.select.inj h with rfl
    decide

/-! ## Theorems: speed distribution (C9) -/

theorem bumpSpeed_total (c : SpeedCounts) (s : Sensor) :
    (bumpSpeed c s).total = c.total + 1 := by
  simp only [bumpSpeed]
  split_ifs <;> simp [SpeedCounts.total] <;> omega

theorem foldl_bumpSpeed_total (l : List Sensor) (c : SpeedCounts) :
    (l.foldl bumpSpeed c).total = c.total + l.length := by
  induction l generalizing c with
  | nil => simp [List.foldl]
  | cons s l ih =>
      rw [List.foldl_cons, ih, bumpSpeed_total]
      simp [List.length_cons]
      omega

/-- **C9.** Every `traffic_loop` sensor lands in exactly one of the five
speed buckets, so the bucket counts sum to the number of `traffic_loop`
sensors; a missing / non-numeric `avg_speed_kmh` coerces to `0` and is
counted in the `<20` bucket. -/
theorem speed_distribution_partition (sensors : List Sensor) :
    (generateSpeedDistribution sensors).total =
      (sensors.filter (fun s => s.sensor_type == "traffic_loop")).length ∧
    (∀ (c : SpeedCounts) (s : Sensor), s.avg_speed_kmh = JsNum.nonnum →
      bumpSpeed c s = { c with lt20 := c.lt20 + 1 }) := by
  constructor
  · rw [generateSpeedDistribution, foldl_bumpSpeed_total]
    simp [SpeedCounts.total]
  · intro c s h
    rw [bumpSpeed, h]
    norm_num [parseFloatOr0]

/-- Witness for C9 at a concrete input: one `traffic_loop` sensor whose
`avg_speed_kmh` is non-numeric is counted, in the `<20` bucket. -/
theorem speed_distribution_partition_witness :
    (generateSpeedDistribution
      [⟨"t1", "traffic_loop", JsNum.nonnum, JsNum.num 5⟩]).total = 1 ∧
    bumpSpeed ⟨0, 0, 0, 0, 0⟩ ⟨"t1", "traffic_loop", JsNum.nonnum, JsNum.num 5⟩ =
      ⟨1, 0, 0, 0, 0⟩ := by
  constructor
  · rw [(speed_distribution_partition
      [⟨"t1", "traffic_loop", JsNum.nonnum, JsNum.num 5⟩]).1]
    decide
  · exact (speed_distribution_partition []).2 ⟨0, 0, 0, 0, 0⟩
      ⟨"t1", "traffic_loop", JsNum.nonnum, JsNum.num 5⟩ rfl

/-! ## Theorems: groupDataByPeriod (C10) -/

theorem lookupVals_pushKey (al : List (String × List ℚ)) (k : String)
    (v : ℚ) (k' : String) :
    lookupVals (pushKey al k v) k' =
      if k' = k then lookupVals al k' ++ [v] else lookupVals al k' := by
  induction al with
  | nil =>
      by_cases h : k' = k
      · subst h
        simp [pushKey, lookupVals]
      · simp [pushKey, lookupVals, h, Ne.symm h]
  | cons hd rest ih =>
      rcases hd with ⟨k0, vs⟩
      by_cases h0 : k0 = k
      · subst h0
        by_cases h : k' = k0
        · subst h
          simp [pushKey, lookupVals]
        · simp [pushKey, lookupVals, h, Ne.symm h]
      · by_cases h : k0 = k'
        · subst h
          simp [pushKey, lookupVals, h0, Ne.symm h0]
        · simp [pushKey, lookupVals, h0, h, ih]

/-- The values grouped under key `k` by the fold are exactly the coerced
counts of the included items whose time key is `k`, in data order. -/
theorem lookupVals_groupFold (period gran : String) (data : List HistItem) :
    ∀ (al : List (String × List ℚ)) (k : String),
      lookupVals (data.foldl (groupStep period gran) al) k =
        lookupVals al k ++
          (data.filter (fun it =>
            itemIncluded it && (itemKey period gran it == some k))).map
            (fun it => parseFloatOr0 it.vehicle_count_per_min) := by
  induction data with
  | nil => intro al k; simp
  | cons it rest ih =>
      intro al k
      rw [List.foldl_cons]
      cases hts : it.timestamp with
      | none =>
          have hstep : groupStep period gran al it = al := by
            simp [groupStep, hts]
          have hinc : itemIncluded it = false := by
            simp [itemIncluded, hts]
          rw [hstep, ih]
          simp [hinc]
      | some d =>
          by_cases hdsh : it.vehicle_count_per_min = JsNum.dash
          · have hstep : groupStep period gran al it = al := by
              simp [groupStep, hts, hdsh]
            have hinc : itemIncluded it = false := by
              simp [itemIncluded, hdsh]
            rw [hstep, ih]
            simp [hinc]
          · have hstep : groupStep period gran al it =
                pushKey al (timeKey period gran d)
                  (parseFloatOr0 it.vehicle_count_per_min) := by
              simp [groupStep, hts, hdsh]
            have hinc : itemIncluded it = true := by
              simp [itemIncluded, hts, hdsh]
            rw [hstep, ih, lookupVals_pushKey]
            by_cases hk : timeKey period gran d = k
            · have hkey : (itemKey period gran it == some k) = true := by
                simp [itemKey, hts, hk]
              rw [if_pos hk.symm]
              simp [hinc, hkey, List.filter_cons]
            · have hkey : (itemKey period gran it == some k) = false := by
                simp [itemKey, hts, hk]
              rw [if_neg (fun h => hk h.symm)]
              simp [hinc, hkey, List.filter_cons]

theorem mem_alKeys_pushKey (al : List (String × List ℚ)) (k : String)
    (v : ℚ) (k' : String) :
    k' ∈ alKeys (pushKey al k v) ↔ k' ∈ alKeys al ∨ k' = k := by
  induction al with
  | nil => simp [pushKey, alKeys]
  | cons hd rest ih =>
      rcases hd with ⟨k0, vs⟩
      by_cases h0 : k0 = k
      · subst h0
        simp [pushKey, alKeys]
        tauto
      · simp [pushKey, alKeys, h0] at *
        rw [ih]
        tauto

/-- A key appears in the grouped association list exactly when some
included item maps to it. -/
theorem mem_alKeys_groupFold (period gran : String) (data : List HistItem) :
    ∀ (al : List (String × List ℚ)) (k : String),
      k ∈ alKeys (data.foldl (groupStep period gran) al) ↔
        k ∈ alKeys al ∨
          ∃ it ∈ data, itemIncluded it = true ∧
            itemKey period gran it = some k := by
  induction data with
  | nil => intro al k; simp
  | cons it rest ih =>
      intro al k
      rw [List.foldl_cons]
      cases hts : it.timestamp with
      | none =>
          have hstep : groupStep period gran al it = al := by
            simp [groupStep, hts]
          rw [hstep, ih]
          constructor
          · rintro (h | ⟨it', hmem, h1, h2⟩)
            · exact Or.inl h
            · exact Or.inr ⟨it', List.mem_cons_of_mem _ hmem, h1, h2⟩
          · rintro (h | ⟨it', hmem, h1, h2⟩)
            · exact Or.inl h
            · rcases List.mem_cons.mp hmem with rfl | hmem'
              · simp [itemIncluded, hts] at h1
              · exact Or.inr ⟨it', hmem', h1, h2⟩
      | some d =>
          by_cases hdsh : it.vehicle_count_per_min = JsNum.dash
          · have hstep : groupStep period gran al it = al := by
              simp [groupStep, hts, hdsh]
            rw [hstep, ih]
            constructor
            · rintro (h | ⟨it', hmem, h1, h2⟩)
              · exact Or.inl h
              · exact Or.inr ⟨it', List.mem_cons_of_mem _ hmem, h1, h2⟩
            · rintro (h | ⟨it', hmem, h1, h2⟩)
              · exact Or.inl h
              · rcases List.mem_cons.mp hmem with rfl | hmem'
                · simp [itemIncluded, hdsh] at h1
                · exact Or.inr ⟨it', hmem', h1, h2⟩
          · have hstep : groupStep period gran al it =
                pushKey al (timeKey period gran d)
                  (parseFloatOr0 it.vehicle_count_per_min) := by
              simp [groupStep, hts, hdsh]
            rw [hstep, ih, mem_alKeys_pushKey]
            constructor
            · rintro ((h | h) | ⟨it', hmem, h1, h2⟩)
              · exact Or.inl h
              · exact Or.inr ⟨it, List.mem_cons_self _ _,
                  by simp [itemIncluded, hts, hdsh],
                  by simp [itemKey, hts, h]⟩
              · exact Or.inr ⟨it', List.mem_cons_of_mem _ hmem, h1, h2⟩
            · rintro (h | ⟨it', hmem, h1, h2⟩)
              · exact Or.inl (Or.inl h)
              · rcases List.mem_cons.mp hmem with rfl | hmem'
                · refine Or.inl (Or.inr ?_)
                  simp [itemKey, hts] at h2
                  exact h2.symm
                · exact Or.inr ⟨it', hmem', h1, h2⟩

/-- **C10.** The labels of `groupDataByPeriod` are sorted
lexicographically; each charted value is the arithmetic mean of the
coerced `vehicle_count_per_min` of exactly the items whose time key is
that label; and a label exists exactly when some item with a timestamp and
a count other than `'-'` maps to it (so excluded items contribute to no
bucket). -/
theorem groupDataByPeriod_mean_sorted (data : List HistItem)
    (period gran : String) :
    (groupDataByPeriod data period gran).1.Sorted (· ≤ ·) ∧
    (groupDataByPeriod data period gran).2 =
      (groupDataByPeriod data period gran).1.map (fun l =>
        ((data.filter (fun it =>
            itemIncluded it && (itemKey period gran it == some l))).map
          (fun it => parseFloatOr0 it.vehicle_count_per_min)).sum /
        (((data.filter (fun it =>
            itemIncluded it && (itemKey period gran it == some l))).length : ℚ))) ∧
    ∀ l : String, l ∈ (groupDataByPeriod data period gran).1 ↔
      ∃ it ∈ data, itemIncluded it = true ∧
        itemKey period gran it = some l := by
  refine ⟨?_, ?_, ?_⟩
  · exact List.sorted_mergeSort' (alKeys (groupPhase period gran data))
  · apply List.map_congr_left
    intro l _
    have h := lookupVals_groupFold period gran data [] l
    simp only [lookupVals] at h
    rw [groupPhase] at *
    rw [h]
    simp [List.length_map]
  · intro l
    have hperm := List.mergeSort_perm (alKeys (groupPhase period gran data))
      (fun a b => decide (a ≤ b))
    rw [groupDataByPeriod]
    simp only []
    rw [hperm.mem_iff]
    have h := mem_alKeys_groupFold period gran data [] l
    simp only [alKeys, List.map_nil, List.not_mem_nil, false_or] at h
    rw [groupPhase]
    exact h

/-! ## Theorems: count window and incremental aggregate (C2, C6) -/

theorem minOf_append (l : List ℚ) (x : ℚ) :
    minOf (l ++ [x]) =
      some (match minOf l with | none => x | some m => min m x) := by
  simp [minOf, List.foldl_append]

theorem maxOf_append (l : List ℚ) (x : ℚ) :
    maxOf (l ++ [x]) =
      some (match maxOf l with | none => x | some m => max m x) := by
  simp [maxOf, List.foldl_append]

theorem goodWindow_insert (w : CountWindow) (x : ℚ) (h : GoodWindow w) :
    GoodWindow (w.insert x) := by
  obtain ⟨hsum, hsq, hcnt, hlo, hhi⟩ := h
  rw [CountWindow.insert]
  by_cases hlen : w.buf.length < countCapacity
  · rw [if_pos hlen]
    refine ⟨?_, ?_, ?_, ?_, ?_⟩
    · simp [hsum, List.sum_append]
    · simp [hsq, List.map_append, List.sum_append]
    · simp [hcnt]
    · simp [hlo, minOf_append]
    · simp [hhi, maxOf_append]
  · rw [if_neg hlen]
    cases hbuf : w.buf with
    | nil =>
        exfalso
        rw [hbuf] at hlen
        simp [countCapacity] at hlen
    | cons b t =>
        rw [hbuf] at hsum hsq hcnt
        refine ⟨?_, ?_, ?_, ?_, ?_⟩
        · simp [hbuf, hsum, List.sum_append]
        · simp [hbuf, hsq, List.map_append, List.sum_append]
        · simp [hbuf, hcnt]
        · simp [hbuf]
        · simp [hbuf]

theorem goodWindow_foldl (xs : List ℚ) :
    ∀ w : CountWindow, GoodWindow w →
      GoodWindow (xs.foldl CountWindow.insert w) := by
  induction xs with
  | nil => intro w h; exact h
  | cons x xs ih =>
      intro w h
      rw [List.foldl_cons]
      exact ih _ (goodWindow_insert w x h)

theorem goodWindow_insertAll (xs : List ℚ) : GoodWindow (insertAll xs) :=
  goodWindow_foldl xs CountWindow.empty
    ⟨rfl, rfl, rfl, rfl, rfl⟩

theorem insertAll_buf (xs : List ℚ) :
    (insertAll xs).buf = xs.drop (xs.length - countCapacity) := by
  induction xs using List.reverseRecOn with
  | nil => rfl
  | append_singleton xs x ih =>
      have hfold : insertAll (xs ++ [x]) = (insertAll xs).insert x := by
        rw [insertAll, insertAll, List.foldl_append, List.foldl_cons,
          List.foldl_nil]
      rw [hfold, CountWindow.insert]
      by_cases hn : xs.length < countCapacity
      · rw [if_pos (by rw [ih, List.length_drop]; omega)]
        show (insertAll xs).buf ++ [x] =
          (xs ++ [x]).drop ((xs ++ [x]).length - countCapacity)
        have h1 : xs.length - countCapacity = 0 := by omega
        have h2 : (xs ++ [x]).length - countCapacity = 0 := by
          rw [List.length_append, List.length_singleton]
          omega
        rw [ih, h1, h2]
        simp
      · have hlen2 : ¬ (insertAll xs).buf.length < countCapacity := by
          rw [ih, List.length_drop]
          omega
        rw [if_neg hlen2]
        show (insertAll xs).buf.tail ++ [x] =
          (xs ++ [x]).drop ((xs ++ [x]).length - countCapacity)
        have h3 : (xs ++ [x]).length - countCapacity =
            xs.length - countCapacity + 1 := by
          rw [List.length_append, List.length_singleton]
          omega
        have hC : countCapacity = 20 := rfl
        have h4 : xs.length - countCapacity + 1 ≤ xs.length := by omega
        rw [ih, List.tail_drop, h3, List.drop_append_of_le_length h4]

/-- **C6.** For every window state reachable by any sequence of
insertions (each of which also evicts at capacity), the incrementally
maintained aggregate coincides exactly with the aggregate recomputed from
scratch over the raw readings currently in the window; in particular mean
and variance (hence stddev) derived from the incremental state equal
those recomputed from the raw contents.  In the rational model the
floating-point tolerance is zero. -/
theorem aggregate_matches_recompute (xs : List ℚ) :
    insertAll xs = recomputeAgg ((insertAll xs).buf) ∧
    CountWindow.mean (insertAll xs) =
      ((insertAll xs).buf.sum) / (((insertAll xs).buf.length : ℚ)) ∧
    CountWindow.variance (insertAll xs) =
      max 0 ((((insertAll xs).buf.map (fun x => x * x)).sum /
          (((insertAll xs).buf.length : ℚ))) -
        (((insertAll xs).buf.sum) / (((insertAll xs).buf.length : ℚ))) ^ 2) := by
  obtain ⟨hsum, hsq, hcnt, hlo, hhi⟩ := goodWindow_insertAll xs
  refine ⟨?_, ?_, ?_⟩
  · cases hw : insertAll xs with
    | mk buf sum sumSq count lo hi =>
        rw [hw] at hsum hsq hcnt hlo hhi
        simp only [recomputeAgg] at *
        simp_all
  · rw [CountWindow.mean, hsum, hcnt]
  · rw [CountWindow.variance, CountWindow.mean, hsum, hsq, hcnt]

/-- **C2.** The count window never holds more than K = 20 entries; after
at least K + 1 valid insertions the window is exactly the last K inserted
values, so the first inserted entry is absent (at least one leading entry
has been dropped); concretely, inserting 21 readings of value 10 and then
one reading of value 1000 leaves the last 20 readings, whose mean is
(19·10 + 1000)/20 and not (20·10 + 1000)/21. -/
theorem count_window_bound (xs : List ℚ) :
    (insertAll xs).buf.length ≤ countCapacity ∧
    (insertAll xs).count ≤ countCapacity ∧
    (countCapacity + 1 ≤ xs.length →
      (insertAll xs).buf = xs.drop (xs.length - countCapacity) ∧
      1 ≤ xs.length - countCapacity) ∧
    (insertAll (List.replicate 21 (10 : ℚ) ++ [1000])).buf =
      List.replicate 19 (10 : ℚ) ++ [1000] ∧
    CountWindow.mean (insertAll (List.replicate 21 (10 : ℚ) ++ [1000])) =
      (19 * 10 + 1000) / 20 ∧
    CountWindow.mean (insertAll (List.replicate 21 (10 : ℚ) ++ [1000])) ≠
      (20 * 10 + 1000) / 21 := by
  have hlen : (insertAll xs).buf.length ≤ countCapacity := by
    rw [insertAll_buf, List.length_drop]
    omega
  have hb : (insertAll (List.replicate 21 (10 : ℚ) ++ [1000])).buf =
      List.replicate 19 (10 : ℚ) ++ [1000] := by decide
  obtain ⟨hsum, -, hcnt, -, -⟩ :=
    goodWindow_insertAll (List.replicate 21 (10 : ℚ) ++ [1000])
  have hmean :
      CountWindow.mean (insertAll (List.replicate 21 (10 : ℚ) ++ [1000])) =
        1190 / 20 := by
    rw [CountWindow.mean, hsum, hcnt, hb]
    norm_num [List.sum_append, List.sum_replicate]
  refine ⟨hlen, ?_, ?_, hb, ?_, ?_⟩
  · rw [(goodWindow_insertAll xs).2.2.1]
    exact hlen
  · intro h
    exact ⟨insertAll_buf xs, by omega⟩
  · rw [hmean]
    norm_num
  · rw [hmean]
    norm_num

/-- Witness for C2 at the concrete 22-element insertion sequence of the
claim. -/
theorem count_window_bound_witness :
    countCapacity + 1 ≤ (List.replicate 21 (10 : ℚ) ++ [1000]).length ∧
    (insertAll (List.replicate 21 (10 : ℚ) ++ [1000])).buf =
      (List.replicate 21 (10 : ℚ) ++ [1000]).drop
        ((List.replicate 21 (10 : ℚ) ++ [1000]).length - countCapacity) ∧
    1 ≤ (List.replicate 21 (10 : ℚ) ++ [1000]).length - countCapacity :=
  ⟨by decide,
   (count_window_bound (List.replicate 21 (10 : ℚ) ++ [1000])).2.2.1 (by decide)⟩

/-! ## Theorems: validator boundary (C4) -/

/-- **C4.** A reading whose value lies exactly at the upper boundary of
its sensor-type's configured range is accepted and returned unchanged; a
reading one unit past the boundary is rejected with `OutOfRange`, and a
rejected reading reaches no window (both window maps of the engine state
are untouched). -/
theorem validator_boundary (now : ℤ) (r : Reading) (lo hi : ℚ)
    (hrange : rangeFor r.sensor_type r.metric = some (lo, some hi))
    (hlohi : lo ≤ hi)
    (hts1 : ¬ r.timestamp < now - retentionHorizon)
    (hts2 : ¬ now + clockSkewAllowance < r.timestamp) :
    (r.value = hi → validate now r = Except.ok r) ∧
    (r.value = hi + 1 →
      validate now r = Except.error ValidationError.OutOfRange ∧
      ∀ st : EngineState,
        (processReading st now r).countW = st.countW ∧
        (processReading st now r).timeW = st.timeW) := by
  constructor
  · intro hv
    simp only [validate, hrange]
    rw [if_neg hts1, if_neg hts2,
      if_neg (by rw [hv]; exact not_lt.mpr hlohi),
      if_neg (by rw [hv]; exact lt_irrefl hi)]
  · intro hv
    have herr : validate now r = Except.error ValidationError.OutOfRange := by
      simp only [validate, hrange]
      rw [if_neg hts1, if_neg hts2,
        if_neg (by
          rw [hv]
          exact not_lt.mpr (le_trans hlohi (le_of_lt (lt_add_one hi)))),
        if_pos (by rw [hv]; exact lt_add_one hi)]
    refine ⟨herr, fun st => ?_⟩
    constructor <;> simp [processReading, herr]

/-- Witness for C4: a traffic `speed` reading of exactly 200 km/h is
accepted; 201 km/h is rejected as `OutOfRange` and windows are
untouched. -/
theorem validator_boundary_witness :
    validate 0 ⟨"Loop-01", SensorType.traffic, "speed", 200, 0, 0⟩ =
      Except.ok ⟨"Loop-01", SensorType.traffic, "speed", 200, 0, 0⟩ ∧
    validate 0 ⟨"Loop-01", SensorType.traffic, "speed", 201, 0, 0⟩ =
      Except.error ValidationError.OutOfRange ∧
    (processReading ⟨[], [], 0⟩ 0
      ⟨"Loop-01", SensorType.traffic, "speed", 201, 0, 0⟩).countW = [] := by
  refine ⟨?_, ?_, ?_⟩
  · exact (validator_boundary 0
      ⟨"Loop-01", SensorType.traffic, "speed", 200, 0, 0⟩ 0 200 rfl
      (by norm_num) (by decide) (by decide)).1 rfl
  · exact ((validator_boundary 0
      ⟨"Loop-01", SensorType.traffic, "speed", 201, 0, 0⟩ 0 200 rfl
      (by norm_num) (by decide) (by decide)).2 (by norm_num)).1
  · exact (((validator_boundary 0
      ⟨"Loop-01", SensorType.traffic, "speed", 201, 0, 0⟩ 0 200 rfl
      (by norm_num) (by decide) (by decide)).2 (by norm_num)).2 ⟨[], [], 0⟩).1

/-! ## Theorems: anomaly detector (C7) -/

/-- **C7.** With at least the minimum sample size in the count window,
a reading deviating from the rolling mean by more than `z` standard
deviations is flagged as a z-score anomaly; with fewer samples the
detector returns no verdict at all — neither a flag nor a "not anomalous"
classification. -/
theorem anomaly_classify (st : SensorType) (v : ℚ) (w : CountWindow) :
    (minSampleSize ≤ w.count →
      |(v : ℝ) - ((w.mean : ℚ) : ℝ)| >
        ((zThreshold : ℚ) : ℝ) * Real.sqrt ((w.variance : ℚ) : ℝ) →
      classify st v w = Verdict.anomalous AnomalyReason.zscore) ∧
    (w.count < minSampleSize →
      classify st v w = Verdict.insufficientData ∧
      classify st v w ≠ Verdict.notAnomalous ∧
      ∀ re : AnomalyReason, classify st v w ≠ Verdict.anomalous re) := by
  constructor
  · intro hcount hz
    have hvar0 : (0 : ℚ) ≤ w.variance := le_max_left _ _
    have hvarR : (0 : ℝ) ≤ ((w.variance : ℚ) : ℝ) := by exact_mod_cast hvar0
    have hzR : (0 : ℝ) ≤ ((zThreshold : ℚ) : ℝ) * Real.sqrt ((w.variance : ℚ) : ℝ) :=
      mul_nonneg (by norm_num [zThreshold]) (Real.sqrt_nonneg _)
    have hsq : (((zThreshold : ℚ) : ℝ) * Real.sqrt ((w.variance : ℚ) : ℝ)) ^ 2 <
        |(v : ℝ) - ((w.mean : ℚ) : ℝ)| ^ 2 :=
      pow_lt_pow_left₀ hz hzR (by norm_num)
    rw [mul_pow, Real.sq_sqrt hvarR, sq_abs] at hsq
    have hQ : zThreshold ^ 2 * w.variance < (v - w.mean) ^ 2 := by
      have h2 : (((zThreshold ^ 2 * w.variance : ℚ)) : ℝ) <
          (((v - w.mean) ^ 2 : ℚ) : ℝ) := by
        push_cast
        convert hsq using 2
      exact_mod_cast h2
    rw [classify, if_neg (not_lt.mpr hcount), if_pos hQ]
  · intro hcount
    have hcls : classify st v w = Verdict.insufficientData := by
      rw [classify, if_pos hcount]
    refine ⟨hcls, ?_, ?_⟩
    · rw [hcls]
      simp
    · intro re
      rw [hcls]
      simp

/-- Witness for C7: a window of five identical readings (variance 0) and
a deviating value 20 is flagged; a window with four samples gives no
verdict. -/
theorem anomaly_classify_witness :
    classify SensorType.noise 20 ⟨[10, 10, 10, 10, 10], 50, 500, 5, some 10, some 10⟩ =
      Verdict.anomalous AnomalyReason.zscore ∧
    classify SensorType.noise 20 ⟨[10, 10, 10, 10], 40, 400, 4, some 10, some 10⟩ =
      Verdict.insufficientData := by
  constructor
  · refine (anomaly_classify SensorType.noise 20 _).1 (by norm_num [minSampleSize]) ?_
    have hmean : (⟨[10, 10, 10, 10, 10], 50, 500, 5, some 10, some 10⟩ :
        CountWindow).mean = 10 := by
      norm_num [CountWindow.mean]
    have hvar : (⟨[10, 10, 10, 10, 10], 50, 500, 5, some 10, some 10⟩ :
        CountWindow).variance = 0 := by
      norm_num [CountWindow.variance, CountWindow.mean]
    rw [hmean, hvar]
    simp [Real.sqrt_zero]
    norm_num
  · exact ((anomaly_classify SensorType.noise 20 _).2
      (by norm_num [minSampleSize])).1

/-! ## Theorems: alert hysteresis (C1) -/

/-- **C1.** With `breach_count_to_escalate = 2` and a machine in state
NORMAL with no pending breach streak: a single warning-breaching
aggregate followed by a non-breaching one leaves the state NORMAL, while
two consecutive warning-breaching aggregates (below the critical
threshold) move the state to WARNING. -/
theorem alert_hysteresis (cfg : AlertConfig) (st : AlertState)
    (hb : cfg.breach_count_to_escalate = 2)
    (hlev : st.level = AlertLevel.NORMAL) (hbs : st.breach_streak = 0)
    (t1 t2 : ℤ) (vb1 vb2 vn : ℚ)
    (h1w : cfg.warning_threshold ≤ vb1)
    (h2w : cfg.warning_threshold ≤ vb2) (h2c : vb2 < cfg.critical_threshold)
    (hn : vn < cfg.warning_threshold) :
    (stepAlert cfg (stepAlert cfg st t1 vb1 false).1 t2 vn false).1.level =
      AlertLevel.NORMAL ∧
    (stepAlert cfg (stepAlert cfg st t1 vb1 false).1 t2 vb2 false).1.level =
      AlertLevel.WARNING := by
  have hs1 : (stepAlert cfg st t1 vb1 false).1 =
      ⟨AlertLevel.NORMAL, 1, 0, st.last_notified⟩ := by
    simp [stepAlert, breachUpdate, breachTarget, hlev, hbs, hb, h1w]
  constructor
  · rw [hs1]
    simp [stepAlert, calmUpdate, not_le.mpr hn]
  · rw [hs1]
    simp [stepAlert, breachUpdate, breachTarget, escalTarget, hb, h2w,
      not_le.mpr h2c]

/-- Witness for C1: warning 40 / critical 60, breach count 2; the
aggregate sequences 45, 30 and 45, 45 from the initial state. -/
theorem alert_hysteresis_witness :
    (stepAlert ⟨40, 60, 2, 3, 300⟩
      (stepAlert ⟨40, 60, 2, 3, 300⟩ AlertState.initial 0 45 false).1
      60 30 false).1.level = AlertLevel.NORMAL ∧
    (stepAlert ⟨40, 60, 2, 3, 300⟩
      (stepAlert ⟨40, 60, 2, 3, 300⟩ AlertState.initial 0 45 false).1
      60 45 false).1.level = AlertLevel.WARNING :=
  alert_hysteresis ⟨40, 60, 2, 3, 300⟩ AlertState.initial rfl rfl rfl
    0 60 45 45 30 (by norm_num) (by norm_num) (by norm_num) (by norm_num)

/-! ## Theorems: notification cooldown (C3) -/

theorem calmUpdate_snd (cfg : AlertConfig) (st : AlertState) :
    (calmUpdate cfg st).2 = none := by
  unfold calmUpdate
  split
  · rfl
  · rfl
  · rfl
  · split <;> rfl

theorem calmUpdate_last (cfg : AlertConfig) (st : AlertState) :
    (calmUpdate cfg st).1.last_notified = st.last_notified := by
  unfold calmUpdate
  split
  · rfl
  · rfl
  · rfl
  · split <;> rfl

theorem breachUpdate_notify (cfg : AlertConfig) (st : AlertState) (now : ℤ)
    (critB : Bool) (t : ℤ)
    (h : (breachUpdate cfg st now critB).2 = some t) :
    t = now ∧ (breachUpdate cfg st now critB).1.level = AlertLevel.CRITICAL ∧
    st.level ≠ AlertLevel.CRITICAL ∧
    cooldownOk cfg st.last_notified now = true ∧
    (breachUpdate cfg st now critB).1.last_notified = some now := by
  unfold breachUpdate at h ⊢
  by_cases hcond : (breachTarget cfg st critB == AlertLevel.CRITICAL
      && !(st.level == AlertLevel.CRITICAL)
      && cooldownOk cfg st.last_notified now) = true
  · rw [if_pos hcond] at h ⊢
    simp only [Bool.and_eq_true] at hcond
    obtain ⟨⟨hA, hB⟩, hC⟩ := hcond
    have ht : t = now := by simpa using h.symm
    refine ⟨ht, ?_, ?_, hC, rfl⟩
    · simpa [beq_iff_eq] using hA
    · simpa using hB
  · rw [if_neg hcond] at h
    simp at h

theorem breachUpdate_no_notify (cfg : AlertConfig) (st : AlertState)
    (now : ℤ) (critB : Bool)
    (h : (breachUpdate cfg st now critB).2 = none) :
    (breachUpdate cfg st now critB).1.last_notified = st.last_notified := by
  unfold breachUpdate at h ⊢
  by_cases hcond : (breachTarget cfg st critB == AlertLevel.CRITICAL
      && !(st.level == AlertLevel.CRITICAL)
      && cooldownOk cfg st.last_notified now) = true
  · rw [if_pos hcond] at h
    simp at h
  · rw [if_neg hcond]

theorem stepAlert_notify (cfg : AlertConfig) (st : AlertState) (now : ℤ)
    (v : ℚ) (a : Bool) (t : ℤ)
    (h : (stepAlert cfg st now v a).2 = some t) :
    t = now ∧ (stepAlert cfg st now v a).1.level = AlertLevel.CRITICAL ∧
    st.level ≠ AlertLevel.CRITICAL ∧
    cooldownOk cfg st.last_notified now = true ∧
    (stepAlert cfg st now v a).1.last_notified = some now := by
  unfold stepAlert at h ⊢
  by_cases hw : decide (cfg.warning_threshold ≤ v) = true
  · rw [if_pos hw] at h ⊢
    exact breachUpdate_notify cfg st now _ t h
  · rw [if_neg hw] at h ⊢
    by_cases ha : (a && (st.level == AlertLevel.NORMAL)) = true
    · rw [if_pos ha] at h
      simp at h
    · rw [if_neg ha] at h
      rw [calmUpdate_snd] at h
      simp at h

theorem stepAlert_no_notify (cfg : AlertConfig) (st : AlertState) (now : ℤ)
    (v : ℚ) (a : Bool)
    (h : (stepAlert cfg st now v a).2 = none) :
    (stepAlert cfg st now v a).1.last_notified = st.last_notified := by
  unfold stepAlert at h ⊢
  by_cases hw : decide (cfg.warning_threshold ≤ v) = true
  · rw [if_pos hw] at h ⊢
    exact breachUpdate_no_notify cfg st now _ h
  · rw [if_neg hw] at h ⊢
    by_cases ha : (a && (st.level == AlertLevel.NORMAL)) = true
    · rw [if_pos ha]
    · rw [if_neg ha]
      exact calmUpdate_last cfg st

/-- Every trace of notification times emitted by the alert machine is
spaced by the cooldown, starting from the machine's `last_notified`. -/
theorem spaced_notifyTimes (cfg : AlertConfig) (seq : List (ℤ × ℚ × Bool)) :
    ∀ st : AlertState,
      Spaced cfg.notify_cooldown st.last_notified (notifyTimes cfg st seq) := by
  induction seq with
  | nil => intro st; trivial
  | cons p rest ih =>
      intro st
      rcases p with ⟨now, v, a⟩
      cases hstep : stepAlert cfg st now v a with
      | mk st1 opt =>
          cases opt with
          | none =>
              have hred : notifyTimes cfg st ((now, v, a) :: rest) =
                  notifyTimes cfg st1 rest := by
                simp only [notifyTimes, hstep]
              rw [hred]
              have hlast := stepAlert_no_notify cfg st now v a
                (by rw [hstep])
              rw [hstep] at hlast
              have := ih st1
              rw [hlast] at this
              exact this
          | some t =>
              have hred : notifyTimes cfg st ((now, v, a) :: rest) =
                  t :: notifyTimes cfg st1 rest := by
                simp only [notifyTimes, hstep]
              rw [hred]
              obtain ⟨ht, -, -, hcool, hlast⟩ :=
                stepAlert_notify cfg st now v a t (by rw [hstep])
              rw [hstep] at hlast
              refine ⟨?_, ?_⟩
              · intro l hl
                rw [hl] at hcool
                simp only [cooldownOk] at hcool
                have := of_decide_eq_true hcool
                omega
              · have := ih st1
                rw [hlast, ← ht] at this
                exact this

theorem spaced_tail_bound (c : ℤ) (hc : 0 ≤ c) (ts : List ℤ) :
    ∀ t : ℤ, Spaced c (some t) ts → ∀ b ∈ ts, t + c ≤ b := by
  induction ts with
  | nil =>
      intro t _ b hb
      simp at hb
  | cons u us ih =>
      intro t hsp b hb
      obtain ⟨h1, h2⟩ := hsp
      rcases List.mem_cons.mp hb with rfl | hb2
      · exact h1 t rfl
      · have hu := ih u h2 b hb2
        have htu := h1 t rfl
        omega

theorem spaced_pairwise (c : ℤ) (hc : 0 ≤ c) (last : Option ℤ)
    (ts : List ℤ) (hsp : Spaced c last ts) :
    ts.Pairwise (fun a b => a + c ≤ b) := by
  induction ts generalizing last with
  | nil => exact List.Pairwise.nil
  | cons t us ih =>
      obtain ⟨h1, h2⟩ := hsp
      exact List.Pairwise.cons (spaced_tail_bound c hc us t h2)
        (ih (some t) h2)

theorem pairwise_filter_length_le_one {R : ℤ → ℤ → Prop} (P : ℤ → Bool)
    (hexcl : ∀ x y, P x = true → P y = true → R x y → False)
    (l : List ℤ) (hp : l.Pairwise R) : (l.filter P).length ≤ 1 := by
  induction l with
  | nil => simp
  | cons a l ih =>
      obtain ⟨ha, hl⟩ := List.pairwise_cons.mp hp
      by_cases hPa : P a = true
      · rw [List.filter_cons_of_pos hPa]
        have hnil : l.filter P = [] := by
          rw [List.filter_eq_nil_iff]
          intro b hb hPb
          exact hexcl a b hPa hPb (ha b hb)
        rw [hnil]
        simp
      · rw [List.filter_cons_of_neg (by simpa using hPa)]
        exact ih hl

/-- **C3.** Notification intents are emitted only on upward transitions
into CRITICAL that pass the cooldown test `now - last_notified ≥
notify_cooldown`; along any trace, any two notification times are at
least one cooldown apart, so any half-open cooldown-length interval
contains at most one notification. -/
theorem critical_notification_cooldown (cfg : AlertConfig) (st : AlertState)
    (hc : 0 ≤ cfg.notify_cooldown) :
    (∀ seq : List (ℤ × ℚ × Bool),
      (notifyTimes cfg st seq).Pairwise
        (fun a b => a + cfg.notify_cooldown ≤ b)) ∧
    (∀ (seq : List (ℤ × ℚ × Bool)) (t0 : ℤ),
      ((notifyTimes cfg st seq).filter
        (fun t => decide (t0 ≤ t) &&
          decide (t < t0 + cfg.notify_cooldown))).length ≤ 1) ∧
    (∀ (now : ℤ) (v : ℚ) (a : Bool) (t : ℤ),
      (stepAlert cfg st now v a).2 = some t →
      t = now ∧
      (stepAlert cfg st now v a).1.level = AlertLevel.CRITICAL ∧
      st.level ≠ AlertLevel.CRITICAL ∧
      ∀ l, st.last_notified = some l → cfg.notify_cooldown ≤ now - l) := by
  refine ⟨?_, ?_, ?_⟩
  · intro seq
    exact spaced_pairwise cfg.notify_cooldown hc st.last_notified _
      (spaced_notifyTimes cfg seq st)
  · intro seq t0
    refine pairwise_filter_length_le_one _ ?_ _
      (spaced_pairwise cfg.notify_cooldown hc st.last_notified _
        (spaced_notifyTimes cfg seq st))
    intro x y hx hy hR
    simp only [Bool.and_eq_true, decide_eq_true_eq] at hx hy
    omega
  · intro now v a t h
    obtain ⟨ht, hlev, hne, hcool, -⟩ := stepAlert_notify cfg st now v a t h
    refine ⟨ht, hlev, hne, ?_⟩
    intro l hl
    rw [hl] at hcool
    simp only [cooldownOk] at hcool
    exact of_decide_eq_true hcool

/-- Witness for C3: with the default profile (cooldown 300 s) and three
CRITICAL-breaching aggregates 60 s apart from the initial state, at most
one notification falls in the interval [0, 300). -/
theorem critical_notification_cooldown_witness :
    ((notifyTimes ⟨40, 60, 2, 3, 300⟩ AlertState.initial
        [(0, 70, false), (60, 70, false), (120, 70, false)]).filter
      (fun t => decide ((0 : ℤ) ≤ t) &&
        decide (t < 0 + (300 : ℤ)))).length ≤ 1 :=
  (critical_notification_cooldown ⟨40, 60, 2, 3, 300⟩ AlertState.initial
    (by norm_num)).2.1 [(0, 70, false), (60, 70, false), (120, 70, false)] 0

/-! ## Theorems: time window (C5) -/

theorem dropWhile_exists_drop (p : Reading → Bool) (w : List Reading) :
    ∃ k, w.dropWhile p = w.drop k := by
  induction w with
  | nil => exact ⟨0, rfl⟩
  | cons e rest ih =>
      by_cases h : p e = true
      · obtain ⟨k, hk⟩ := ih
        refine ⟨k + 1, ?_⟩
        rw [List.dropWhile_cons_of_pos h, List.drop_succ_cons]
        exact hk
      · refine ⟨0, ?_⟩
        rw [List.dropWhile_cons_of_neg (by simpa using h)]
        exact (List.drop_zero _).symm

/-- On a window whose timestamps are nondecreasing, evicting stale
entries from the head removes exactly the entries older than the
cutoff. -/
theorem dropWhile_old_eq_filter (c : ℤ) (w : List Reading)
    (hsort : List.Pairwise (fun a b : Reading =>
      a.timestamp ≤ b.timestamp) w) :
    w.dropWhile (fun e => decide (e.timestamp < c)) =
      w.filter (fun e => decide (c ≤ e.timestamp)) := by
  induction w with
  | nil => rfl
  | cons e rest ih =>
      obtain ⟨he, hrest⟩ := List.pairwise_cons.mp hsort
      by_cases h : e.timestamp < c
      · rw [List.dropWhile_cons_of_pos (by simpa using h),
          List.filter_cons_of_neg (by simpa using not_le.mpr h)]
        exact ih hrest
      · rw [List.dropWhile_cons_of_neg (by simpa using h),
          List.filter_cons_of_pos (by simpa using not_lt.mp h)]
        refine congrArg (e :: ·) ?_
        symm
        rw [List.filter_eq_self]
        intro b hb
        have := le_trans (not_lt.mp h) (he b hb)
        simpa using this

theorem finalTime_ge (seq : List (ℤ × Reading)) :
    ∀ n : ℤ, List.Chain' (· ≤ ·) (n :: seq.map Prod.fst) →
      n ≤ finalTime n seq := by
  induction seq with
  | nil => intro n _; exact le_refl n
  | cons p rest ih =>
      intro n hc
      rw [List.map_cons] at hc
      obtain ⟨h1, h2⟩ := List.chain'_cons.mp hc
      have h3 := ih p.1 h2
      have hft : finalTime n (p :: rest) = finalTime p.1 rest := rfl
      rw [hft]
      omega

/-- Invariant run of the time window: starting from an already evicted,
time-sorted window, processing a monotone sequence leaves exactly the
entries at least as recent as the final cutoff, in order. -/
theorem timeRun_filter (seq : List (ℤ × Reading)) :
    ∀ (w : List Reading) (n : ℤ),
      List.Pairwise (fun a b : Reading => a.timestamp ≤ b.timestamp)
        (w ++ seq.map Prod.snd) →
      List.Chain' (· ≤ ·) (n :: seq.map Prod.fst) →
      w.filter (fun e => decide (n - timeWindowW ≤ e.timestamp)) = w →
      timeRun w seq =
        (w ++ seq.map Prod.snd).filter
          (fun e => decide (finalTime n seq - timeWindowW ≤ e.timestamp)) := by
  induction seq with
  | nil =>
      intro w n hp hc hw
      simpa [timeRun, finalTime] using hw.symm
  | cons p rest ih =>
      rcases p with ⟨n2, r⟩
      intro w n hp hc hw
      simp only [List.map_cons] at hp hc
      obtain ⟨hnn2, hc2⟩ := List.chain'_cons.mp hc
      have hwsort : List.Pairwise (fun a b : Reading =>
          a.timestamp ≤ b.timestamp) w :=
        List.Pairwise.sublist (List.sublist_append_left w _) hp
      have hevict : w.dropWhile (fun e => decide (e.timestamp < n2 - timeWindowW)) =
          w.filter (fun e => decide (n2 - timeWindowW ≤ e.timestamp)) :=
        dropWhile_old_eq_filter (n2 - timeWindowW) w hwsort
      have hww : (w.filter (fun e => decide (n2 - timeWindowW ≤ e.timestamp))).filter
          (fun e => decide (n2 - timeWindowW ≤ e.timestamp)) =
          w.filter (fun e => decide (n2 - timeWindowW ≤ e.timestamp)) := by
        rw [List.filter_filter]
        apply List.filter_congr
        intro x _
        exact Bool.and_self _
      have hrun : timeRun w ((n2, r) :: rest) = timeRun (timeStep n2 w r) rest := rfl
      have hft : finalTime n ((n2, r) :: rest) = finalTime n2 rest := rfl
      have hfin : n2 ≤ finalTime n2 rest := finalTime_ge rest n2 hc2
      have hleft : (w.filter (fun e => decide (n2 - timeWindowW ≤ e.timestamp))).filter
          (fun e => decide (finalTime n2 rest - timeWindowW ≤ e.timestamp)) =
          w.filter (fun e => decide (finalTime n2 rest - timeWindowW ≤ e.timestamp)) := by
        rw [List.filter_filter]
        apply List.filter_congr
        intro x _
        by_cases hF : finalTime n2 rest - timeWindowW ≤ x.timestamp
        · have hP : n2 - timeWindowW ≤ x.timestamp := by omega
          simp [hF, hP]
        · simp [hF]
      rw [hrun, hft]
      by_cases hr : r.timestamp < n2 - timeWindowW
      · have hstep : timeStep n2 w r =
            w.filter (fun e => decide (n2 - timeWindowW ≤ e.timestamp)) := by
          simp only [timeStep]
          rw [if_pos hr, hevict]
        rw [hstep]
        have hsub : (w.filter (fun e => decide (n2 - timeWindowW ≤ e.timestamp))
              ++ rest.map Prod.snd).Sublist (w ++ (r :: rest.map Prod.snd)) :=
          List.Sublist.append (List.filter_sublist w)
            (List.sublist_cons_self r (rest.map Prod.snd))
        have hih := ih (w.filter (fun e => decide (n2 - timeWindowW ≤ e.timestamp)))
          n2 (List.Pairwise.sublist hsub hp) hc2 hww
        rw [hih]
        have hFr : (decide (finalTime n2 rest - timeWindowW ≤ r.timestamp)) = false := by
          simp only [decide_eq_false_iff_not, not_le]
          omega
        rw [List.filter_append, hleft, List.map_cons, List.filter_append,
          List.filter_cons_of_neg (by rw [hFr]; exact Bool.false_ne_true)]
      · have hstep : timeStep n2 w r =
            w.filter (fun e => decide (n2 - timeWindowW ≤ e.timestamp)) ++ [r] := by
          simp only [timeStep]
          rw [if_neg hr, hevict]
        rw [hstep]
        have hwfix : ((w.filter (fun e => decide (n2 - timeWindowW ≤ e.timestamp)))
              ++ [r]).filter (fun e => decide (n2 - timeWindowW ≤ e.timestamp)) =
            w.filter (fun e => decide (n2 - timeWindowW ≤ e.timestamp)) ++ [r] := by
          rw [List.filter_append, hww, List.filter_cons,
            if_pos (decide_eq_true (not_lt.mp hr))]
          simp
        have hsub : ((w.filter (fun e => decide (n2 - timeWindowW ≤ e.timestamp))
              ++ [r]) ++ rest.map Prod.snd).Sublist
            (w ++ (r :: rest.map Prod.snd)) := by
          rw [List.append_assoc]
          exact List.Sublist.append (List.filter_sublist w) (List.Sublist.refl _)
        have hih := ih (w.filter (fun e => decide (n2 - timeWindowW ≤ e.timestamp)) ++ [r])
          n2 (List.Pairwise.sublist hsub hp) hc2 hwfix
        rw [hih, List.append_assoc, List.filter_append, hleft,
          List.filter_append, List.map_cons, List.filter_append]
        simp only [List.filter_singleton, List.filter_cons, cond_eq_if]
        split <;> simp

/-- **C5.** For a nonempty sequence of readings for one sensor/metric
(arrival timestamps nondecreasing, clock nondecreasing), the time window
after processing contains exactly those readings whose timestamp is at
least `now - 10 min` at the final evaluation time, in arrival order; and
each step evicts only from the head of the window, in the same pass as
the insertion. -/
theorem time_window_correct (first : ℤ × Reading)
    (rest : List (ℤ × Reading))
    (hts : List.Pairwise (fun a b : Reading => a.timestamp ≤ b.timestamp)
      ((first :: rest).map Prod.snd))
    (hnow : List.Chain' (· ≤ ·) ((first :: rest).map Prod.fst)) :
    timeRun [] (first :: rest) =
      ((first :: rest).map Prod.snd).filter
        (fun e => decide (finalTime first.1 (first :: rest) - timeWindowW ≤
          e.timestamp)) ∧
    (∀ (now : ℤ) (w : List Reading) (r : Reading), ∃ k,
      timeStep now w r = w.drop k ∨ timeStep now w r = w.drop k ++ [r]) := by
  constructor
  · have hnow2 : List.Chain' (· ≤ ·) (first.1 :: rest.map Prod.fst) := by
      simpa using hnow
    have hchain : List.Chain' (· ≤ ·)
        (first.1 :: (first :: rest).map Prod.fst) := by
      rw [List.map_cons]
      exact List.chain'_cons.mpr ⟨le_refl _, hnow2⟩
    have h := timeRun_filter (first :: rest) [] first.1 (by simpa using hts)
      hchain rfl
    simpa using h
  · intro now w r
    obtain ⟨k, hk⟩ :=
      dropWhile_exists_drop (fun e => decide (e.timestamp < now - timeWindowW)) w
    refine ⟨k, ?_⟩
    simp only [timeStep]
    by_cases hr : r.timestamp < now - timeWindowW
    · rw [if_pos hr, hk]
      exact Or.inl rfl
    · rw [if_neg hr, hk]
      exact Or.inr rfl

/-- Witness for C5: two readings with timestamps 0 and 650, evaluated at
times 0 and 700; at the final cutoff 100 only the second remains. -/
theorem time_window_correct_witness :
    timeRun []
        [((0 : ℤ), (⟨"s1", SensorType.traffic, "speed", 1, 0, 0⟩ : Reading)),
         ((700 : ℤ), (⟨"s1", SensorType.traffic, "speed", 2, 650, 1⟩ : Reading))] =
      [⟨"s1", SensorType.traffic, "speed", 2, 650, 1⟩] := by
  have h := (time_window_correct
    (0, ⟨"s1", SensorType.traffic, "speed", 1, 0, 0⟩)
    [(700, ⟨"s1", SensorType.traffic, "speed", 2, 650, 1⟩)]
    (by decide)
    (by
      show List.Chain' (· ≤ ·) [(0 : ℤ), 700]
      exact List.chain'_cons.mpr ⟨by norm_num, List.chain'_singleton _⟩)).1
  rw [h]
  decide

end TrafficIot
